import Mathlib

/-!
Verification of the product reconciliation and variation engine of
`src/dashboard_oportunidades.py` (function `calcular_variaciones` and its
nested helper `_parse_price`), together with the spec-described trend
aggregator.

The Python code is shallowly embedded: a Python value that can appear in a
product record is a `Value` (the embedding covers `None`, `int`, `str` and
finite `float` values, with floats modelled exactly as rationals; non-finite
floats are outside the modelled value domain). A product record (a Python
dict) is an association list of string keys and values, read and written with
the semantics of `dict.get` and in-place assignment. The pandas DataFrame
built from `productos_ayer` is modelled as its list of row records: rows are
looked up in list order, exactly as `df[mask].iloc[0]` picks the first row
whose field compares equal. Exceptions are modelled with `Except`: an
`Except.error` value is a raised exception escaping `calcular_variaciones`.
-/

namespace Dashboard

attribute [local semireducible] Rat.add Rat.mul Rat.inv Rat.sub Rat.ofScientific

/-- A Python value as it appears in a product record: `None`, an `int`, a
finite `float` (modelled exactly as a rational), or a `str`. -/
inductive Value where
  | null : Value
  | int : ℤ → Value
  | float : ℚ → Value
  | str : String → Value
deriving DecidableEq, Repr

/-- Python truthiness of a `Value`, as used by the guards `if titulo_hoy:`,
`if ... and pid:` and `if ... and link:` in the source: `None`, `0`, `0.0`
and the empty string are falsy. -/
def truthy : Value → Bool
  | Value.null => false
  | Value.int n => n != 0
  | Value.float q => q != 0
  | Value.str s => s != ""

/-- Python equality `==` between two record values, as evaluated elementwise
by the masks `df_ayer[col] == scalar` in the source: numbers compare by
numeric value across `int` and `float`, strings by string equality, and
values of unrelated kinds are unequal. -/
def pyEq : Value → Value → Bool
  | Value.null, Value.null => true
  | Value.int a, Value.int b => a == b
  | Value.int a, Value.float b => (a : ℚ) == b
  | Value.float a, Value.int b => a == (b : ℚ)
  | Value.float a, Value.float b => a == b
  | Value.str a, Value.str b => a == b
  | _, _ => false

/-- A Python dict holding one product record: an association list of field
names and values, in insertion order. -/
abbrev PyDict := List (String × Value)

/-- Semantics of `d.get(k)` on a record: the value stored at the first
occurrence of `k`, and `None` when the key is absent (the source always reads
record fields with `.get`, and the DataFrame columns it reads are filled with
`None` when missing, so an absent key and a stored `None` behave alike). -/
def dictGet : PyDict → String → Value
  | [], _ => Value.null
  | p :: d, k => if p.1 = k then p.2 else dictGet d k

/-- Replacement pass of `dictSet`: every pair whose key is `k` is overwritten
in place. -/
def dictReplace : PyDict → String → Value → PyDict
  | [], _, _ => []
  | p :: d, k, v => (if p.1 = k then (k, v) else p) :: dictReplace d k v

/-- Whether the record has the key `k`. -/
def dictHasKey : PyDict → String → Bool
  | [], _ => false
  | p :: d, k => p.1 = k || dictHasKey d k

/-- Semantics of the in-place assignment `d[k] = v` on a Python dict: an
existing key keeps its position and gets the new value, a new key is appended
at the end. -/
def dictSet (d : PyDict) (k : String) (v : Value) : PyDict :=
  if dictHasKey d k then dictReplace d k v else d ++ [(k, v)]

/-- Leading and trailing whitespace removed, as by Python `str.strip()`
(restricted to ASCII whitespace, the only whitespace the claims exercise). -/
def pyStrip (cs : List Char) : List Char :=
  ((cs.dropWhile Char.isWhitespace).reverse.dropWhile Char.isWhitespace).reverse

/-- The numeric value of a list of decimal digit characters, most significant
first. -/
def natOfDigits (ds : List Char) : ℕ :=
  ds.foldl (fun a c => 10 * a + (c.toNat - 48)) 0

/-- Greedy scan of a run of decimal digits in which a single underscore may
stand between two digits (the digit-group grammar of Python numeric
literals): returns the digits seen, underscores dropped, and the unconsumed
rest. A misplaced underscore stops the scan, so it is left in the rest and
makes the surrounding parse fail on the leftover input. -/
def scanDigitsU : List Char → List Char × List Char
  | [] => ([], [])
  | c :: '_' :: c2 :: rest2 =>
    if c.isDigit then
      if c2.isDigit then
        let p := scanDigitsU (c2 :: rest2)
        (c :: p.1, p.2)
      else (c :: [], '_' :: c2 :: rest2)
    else ([], c :: '_' :: c2 :: rest2)
  | c :: rest =>
    if c.isDigit then
      let p := scanDigitsU rest
      (c :: p.1, p.2)
    else ([], c :: rest)

/-- An optional leading sign: returns whether the value is negated, and the
rest. -/
def parseSign : List Char → Bool × List Char
  | '+' :: r => (false, r)
  | '-' :: r => (true, r)
  | r => (false, r)

/-- The exponent part of a Python float literal, after the `e`/`E`: an
optional sign and a digit run that must consume the whole rest. -/
def parseExpPart (cs : List Char) : Option ℤ :=
  let sp := parseSign cs
  let dp := scanDigitsU sp.2
  if dp.1.isEmpty ∨ ¬ dp.2.isEmpty then Option.none
  else some (if sp.1 then -(natOfDigits dp.1 : ℤ) else (natOfDigits dp.1 : ℤ))

/-- The unsigned body of a Python float literal: an integer digit run and/or
a fractional digit run around an optional point, then an optional exponent;
at least one mantissa digit is required and the whole input must be
consumed. -/
def parseFloatBody (cs : List Char) : Option ℚ :=
  let ipp := scanDigitsU cs
  let fpp : List Char × List Char :=
    match ipp.2 with
    | '.' :: r => scanDigitsU r
    | _ => ([], ipp.2)
  if ipp.1.isEmpty ∧ fpp.1.isEmpty then Option.none
  else
    let mant : ℚ := (natOfDigits ipp.1 : ℚ) + (natOfDigits fpp.1 : ℚ) / ((10 : ℚ) ^ fpp.1.length)
    match fpp.2 with
    | [] => some mant
    | 'e' :: r3 => (parseExpPart r3).map (fun e => mant * (10 : ℚ) ^ e)
    | 'E' :: r3 => (parseExpPart r3).map (fun e => mant * (10 : ℚ) ^ e)
    | _ => Option.none

/-- Semantics of Python `float(s)` on a string, for finite decimal literals:
surrounding whitespace is stripped, then an optional sign and the literal
body. `Option.none` models a raised `ValueError` (non-finite spellings such
as `inf`/`nan`, which CPython also accepts, lie outside the modelled value
domain). -/
def pyFloatOfString (s : String) : Option ℚ :=
  let cs := pyStrip s.toList
  let sp := parseSign cs
  (parseFloatBody sp.2).map (fun q => if sp.1 then -q else q)

/-- The digit characters kept by `re.sub(r'[^\d]', '', s.strip())` in the
source (ASCII digits; the claims exercise no other digit characters). -/
def stripDigits (s : String) : List Char :=
  (pyStrip s.toList).filter Char.isDigit

/-- Shallow embedding of the nested helper `_parse_price` of
`calcular_variaciones`: `None` stays `None`; a numeric value is returned
unchanged (as a float); any other value goes through `float(x)` first, and
only when that raises are all non-digit characters stripped, the result being
`None` when no digit remains and the digit string read as a number otherwise.
`Option.none` is Python `None`; the function is total, as the source swallows
every parse error. -/
def parsePrice : Value → Option ℚ
  | Value.null => Option.none
  | Value.int n => some (n : ℚ)
  | Value.float q => some q
  | Value.str s =>
    match pyFloatOfString s with
    | some q => some q
    | Option.none =>
      let digits := stripDigits s
      if digits.isEmpty then Option.none else some (natOfDigits digits : ℚ)

/-- Truncation toward zero, the behaviour of Python `int()` on a float. -/
def ratTrunc (q : ℚ) : ℤ :=
  if q < 0 then ⌈q⌉ else ⌊q⌋

/-- Semantics of Python `int(s)` on a string: whitespace stripped, an
optional sign and a digit run consuming everything; `Option.none` models a
raised `ValueError`. -/
def pyIntOfString (s : String) : Option ℤ :=
  let cs := pyStrip s.toList
  let sp := parseSign cs
  let dp := scanDigitsU sp.2
  if dp.1.isEmpty ∨ ¬ dp.2.isEmpty then Option.none
  else some (if sp.1 then -(natOfDigits dp.1 : ℤ) else (natOfDigits dp.1 : ℤ))

/-- Semantics of Python `int(x)` on a record value; `Option.none` models a
raised exception (`TypeError` on `None`, `ValueError` on a bad string), which
the source catches and turns into `None`. -/
def pyInt : Value → Option ℤ
  | Value.null => Option.none
  | Value.int n => some n
  | Value.float q => some (ratTrunc q)
  | Value.str s => pyIntOfString s

/-- One level of the matching cascade of `calcular_variaciones`: when the
field of the today record is truthy, the first yesterday record whose same
field compares `==` to it (the source computes the boolean mask
`df_ayer[field] == value` and takes `df_ayer[mask].iloc[0]`); otherwise the
level is skipped. -/
def matchLevel (field : String) (hoy : PyDict) (ayer : List PyDict) : Option PyDict :=
  let v := dictGet hoy field
  if truthy v then ayer.find? (fun y => pyEq (dictGet y field) v) else Option.none

/-- The prioritized matching cascade of `calcular_variaciones` (lines
149-166 of the source): exact `titulo` match first, then `id_producto`, then
`link_publicacion`, each level tried only when the previous found nothing. -/
def findPrior (hoy : PyDict) (ayer : List PyDict) : Option PyDict :=
  match matchLevel "titulo" hoy ayer with
  | some fila => some fila
  | Option.none =>
    match matchLevel "id_producto" hoy ayer with
    | some fila => some fila
    | Option.none => matchLevel "link_publicacion" hoy ayer

/-- The prior rank read off a matched row:
`int(fila_anterior.get('posicion')) if fila_anterior.get('posicion') is not
None else None`, with the enclosing `try`/`except` turning a failed
conversion into `None`. -/
def rankingAnteriorOf (fila : PyDict) : Option ℤ :=
  match dictGet fila "posicion" with
  | Value.null => Option.none
  | v => pyInt v

/-- Semantics of the Python subtraction `ranking_anterior - ranking_actual`
where the left side is a known int and the right side is todays raw
`posicion` value: defined on numbers, a `TypeError` otherwise. The source
runs this subtraction outside any `try`, so the error escapes. -/
def pyIntSub (n : ℤ) : Value → Except String Value
  | Value.int m => Except.ok (Value.int (n - m))
  | Value.float q => Except.ok (Value.float ((n : ℚ) - q))
  | _ => Except.error "TypeError"

/-- The record with the three variation fields assigned `None`, as done at
lines 145-147 of the source (and in the empty-`productos_ayer` branch). -/
def initNone (p : PyDict) : PyDict :=
  dictSet (dictSet (dictSet p "variacion_ranking" Value.null)
    "variacion_precio" Value.null) "ranking_anterior" Value.null

/-- The first `if` of lines 175-177 of the source:
`if ranking_anterior is not None and ranking_actual is not None:` assign both
`variacion_ranking` (by the raw Python subtraction, which can raise) and
`ranking_anterior`. -/
def rankStep (fila : PyDict) (rankingActual : Value) (p0 : PyDict) :
    Except String PyDict :=
  match rankingAnteriorOf fila with
  | some ra =>
    if rankingActual = Value.null then Except.ok p0
    else
      match pyIntSub ra rankingActual with
      | Except.ok d =>
        Except.ok (dictSet (dictSet p0 "variacion_ranking" d)
          "ranking_anterior" (Value.int ra))
      | Except.error e => Except.error e
  | Option.none => Except.ok p0

/-- The second `if` of lines 178-179 of the source: assign `variacion_precio`
when both normalized prices are numbers. -/
def priceStep (precioAnterior precioActual : Option ℚ) (p1 : PyDict) : PyDict :=
  match precioAnterior, precioActual with
  | some pa, some pc => dictSet p1 "variacion_precio" (Value.float (pc - pa))
  | _, _ => p1

/-- The loop body of `calcular_variaciones` for one today record: preset the
three variation fields to `None`, run the matching cascade, and when a prior
row is found fill `variacion_ranking`/`ranking_anterior` (only if the prior
rank converts to an int and todays rank is not `None`; the subtraction itself
can raise) and `variacion_precio` (only if both prices normalized to
numbers). -/
def enrichOne (ayer : List PyDict) (hoy : PyDict) : Except String PyDict :=
  match findPrior hoy ayer with
  | Option.none => Except.ok (initNone hoy)
  | some fila =>
    match rankStep fila (dictGet hoy "posicion") (initNone hoy) with
    | Except.error e => Except.error e
    | Except.ok p1 =>
      Except.ok (priceStep (parsePrice (dictGet fila "precio"))
        (parsePrice (dictGet hoy "precio")) p1)

/-- Shallow embedding of `calcular_variaciones` (lines 106-183 of the
source). An empty `productos_ayer` short-circuits: every today record merely
gets the three variation fields set to `None`. Otherwise each today record is
enriched in order; `Except.error` models an exception escaping the call. -/
def calcularVariaciones (productosHoy productosAyer : List PyDict) :
    Except String (List PyDict) :=
  if productosAyer.isEmpty then
    Except.ok (productosHoy.map initNone)
  else
    productosHoy.mapM (enrichOne productosAyer)

/-- Post-call contents of the callers `productos_hoy` argument. In the source
every output record is the very dict object passed in, updated in place
(`producto_hoy['variacion_ranking'] = ...`), and the returned list holds
those same objects, so after a successful call the callers records hold
exactly the returned contents. -/
def todayRecordsAfter (productosHoy productosAyer : List PyDict) :
    Except String (List PyDict) :=
  calcularVariaciones productosHoy productosAyer

/-- Post-call contents of the callers `productos_ayer` argument: the source
only reads the yesterday dicts (copying their values into a DataFrame), so
they are returned unchanged. -/
def yesterdayRecordsAfter (productosHoy productosAyer : List PyDict) :
    List PyDict :=
  productosAyer

/-! Small laws of the dict model: reading a key just written, reading another
key, and key presence. -/

theorem dictGet_append_single (d : PyDict) (k ks : String) (v : Value) :
    dictGet (d ++ [(ks, v)]) k =
      if dictHasKey d k then dictGet d k else if ks = k then v else Value.null := by
  induction d with
  | nil => simp [dictGet, dictHasKey]
  | cons p d ih =>
    by_cases hp : p.1 = k <;> simp [dictGet, dictHasKey, hp, ih]

theorem dictGet_dictReplace_ne (d : PyDict) (k ks : String) (v : Value)
    (hne : k ≠ ks) : dictGet (dictReplace d ks v) k = dictGet d k := by
  induction d with
  | nil => simp [dictGet, dictReplace]
  | cons p d ih =>
    by_cases hp : p.1 = ks
    · simp [dictGet, dictReplace, hp, Ne.symm hne, ih]
    · simp [dictGet, dictReplace, hp, ih]

theorem dictGet_dictReplace_self (d : PyDict) (ks : String) (v : Value)
    (h : dictHasKey d ks = true) : dictGet (dictReplace d ks v) ks = v := by
  induction d with
  | nil => simp [dictHasKey] at h
  | cons p d ih =>
    by_cases hp : p.1 = ks
    · simp [dictGet, dictReplace, hp]
    · simp only [dictHasKey, Bool.or_eq_true] at h
      rcases h with h | h
      · exact absurd (by simpa using h) hp
      · simp [dictGet, dictReplace, hp, ih h]

theorem dictGet_dictSet_self (d : PyDict) (k : String) (v : Value) :
    dictGet (dictSet d k v) k = v := by
  unfold dictSet
  by_cases h : dictHasKey d k
  · simp [dictGet_dictReplace_self, h]
  · simp [h, dictGet_append_single]

theorem dictGet_dictSet_ne (d : PyDict) (k ks : String) (v : Value)
    (hne : k ≠ ks) : dictGet (dictSet d ks v) k = dictGet d k := by
  unfold dictSet
  by_cases h : dictHasKey d ks
  · simp [h, dictGet_dictReplace_ne _ _ _ _ hne]
  · rw [if_neg (by simp [h]), dictGet_append_single]
    by_cases hk : dictHasKey d k
    · simp [hk]
    · simp only [hk, Bool.false_eq_true, if_false, if_neg (Ne.symm hne)]
      induction d with
      | nil => simp [dictGet]
      | cons p d ih =>
        by_cases hp : p.1 = k
        · simp [dictHasKey, hp] at hk
        · simp only [dictHasKey, Bool.or_eq_true] at hk h
          simp [dictGet, hp, ih (by simpa using fun hh => h (Or.inr hh))
            (by simpa using fun hh => hk (Or.inr hh))]

theorem dictHasKey_dictSet_self (d : PyDict) (k : String) (v : Value) :
    dictHasKey (dictSet d k v) k = true := by
  unfold dictSet
  by_cases h : dictHasKey d k
  · simp only [h, if_true]
    induction d with
    | nil => simp [dictHasKey] at h
    | cons p d ih =>
      by_cases hp : p.1 = k
      · simp [dictHasKey, dictReplace, hp]
      · simp only [dictHasKey, Bool.or_eq_true] at h
        rcases h with h | h
        · exact absurd (by simpa using h) hp
        · simp [dictHasKey, dictReplace, hp, ih h]
  · simp only [h, Bool.false_eq_true, if_false]
    induction d with
    | nil => simp [dictHasKey]
    | cons p d ih =>
      simp only [dictHasKey, Bool.or_eq_true] at h
      simp [dictHasKey, ih (by simpa using fun hh => h (Or.inr hh))]

theorem dictHasKey_dictReplace_of (d : PyDict) (k ks : String) (v : Value)
    (h : dictHasKey d k = true) : dictHasKey (dictReplace d ks v) k = true := by
  induction d with
  | nil => simp [dictHasKey] at h
  | cons p d ih =>
    simp only [dictHasKey, Bool.or_eq_true] at h
    rcases h with h | h
    · by_cases hp : p.1 = ks
      · have hk : p.1 = k := by simpa using h
        simp [dictHasKey, dictReplace, hp, hp ▸ hk]
      · simp [dictHasKey, dictReplace, hp, h]
    · simp [dictHasKey, dictReplace, ih h]

theorem dictHasKey_append (d l : PyDict) (k : String) :
    dictHasKey (d ++ l) k = (dictHasKey d k || dictHasKey l k) := by
  induction d with
  | nil => simp [dictHasKey]
  | cons p d ih => simp [dictHasKey, ih, Bool.or_assoc]

theorem dictHasKey_dictSet_of (d : PyDict) (k ks : String) (v : Value)
    (h : dictHasKey d k = true) : dictHasKey (dictSet d ks v) k = true := by
  unfold dictSet
  by_cases hs : dictHasKey d ks
  · simpa [hs] using dictHasKey_dictReplace_of d k ks v h
  · simp [hs, dictHasKey_append, h]

/-! Field-level behaviour of the enrichment steps. -/

theorem initNone_get_other (p : PyDict) (k : String)
    (h1 : k ≠ "variacion_ranking") (h2 : k ≠ "variacion_precio")
    (h3 : k ≠ "ranking_anterior") :
    dictGet (initNone p) k = dictGet p k := by
  unfold initNone
  rw [dictGet_dictSet_ne _ _ _ _ h3, dictGet_dictSet_ne _ _ _ _ h2,
    dictGet_dictSet_ne _ _ _ _ h1]

theorem initNone_get_vr (p : PyDict) :
    dictGet (initNone p) "variacion_ranking" = Value.null := by
  unfold initNone
  rw [dictGet_dictSet_ne _ _ _ _ (by decide), dictGet_dictSet_ne _ _ _ _ (by decide),
    dictGet_dictSet_self]

theorem initNone_get_vp (p : PyDict) :
    dictGet (initNone p) "variacion_precio" = Value.null := by
  unfold initNone
  rw [dictGet_dictSet_ne _ _ _ _ (by decide), dictGet_dictSet_self]

theorem initNone_get_ra (p : PyDict) :
    dictGet (initNone p) "ranking_anterior" = Value.null := by
  unfold initNone
  rw [dictGet_dictSet_self]

theorem priceStep_get_other (pa pc : Option ℚ) (p : PyDict) (k : String)
    (h : k ≠ "variacion_precio") :
    dictGet (priceStep pa pc p) k = dictGet p k := by
  unfold priceStep
  cases pa <;> cases pc <;> simp [dictGet_dictSet_ne _ _ _ _ h]

theorem priceStep_get_vp (pa pc : ℚ) (p : PyDict) :
    dictGet (priceStep (some pa) (some pc) p) "variacion_precio" =
      Value.float (pc - pa) := by
  unfold priceStep
  rw [dictGet_dictSet_self]

theorem rankStep_ok_get_other (fila : PyDict) (v : Value) (p0 p1 : PyDict)
    (h : rankStep fila v p0 = Except.ok p1) (k : String)
    (h1 : k ≠ "variacion_ranking") (h3 : k ≠ "ranking_anterior") :
    dictGet p1 k = dictGet p0 k := by
  unfold rankStep at h
  split at h
  · split at h
    · cases h; rfl
    · split at h
      · cases h
        rw [dictGet_dictSet_ne _ _ _ _ h3, dictGet_dictSet_ne _ _ _ _ h1]
      · cases h
  · cases h; rfl

theorem rankStep_of_int (fila : PyDict) (ra rc : ℤ) (p0 : PyDict)
    (hra : rankingAnteriorOf fila = some ra) :
    rankStep fila (Value.int rc) p0 =
      Except.ok (dictSet (dictSet p0 "variacion_ranking" (Value.int (ra - rc)))
        "ranking_anterior" (Value.int ra)) := by
  unfold rankStep
  rw [hra]
  simp [pyIntSub]

theorem rankStep_of_null_prior (fila : PyDict) (v : Value) (p0 : PyDict)
    (hra : rankingAnteriorOf fila = Option.none) :
    rankStep fila v p0 = Except.ok p0 := by
  unfold rankStep
  rw [hra]

theorem rankStep_of_null_actual (fila : PyDict) (p0 : PyDict) :
    rankStep fila Value.null p0 = Except.ok p0 := by
  unfold rankStep
  cases rankingAnteriorOf fila <;> simp

/-- A successful `List.mapM` over `Except` maps each element in place: the
output has the length of the input and the function succeeds pointwise. -/
theorem mapM_except_ok (f : PyDict → Except String PyDict) :
    ∀ (l out : List PyDict), l.mapM f = Except.ok out →
      out.length = l.length ∧
      ∀ i, i < l.length → f (l.getD i []) = Except.ok (out.getD i []) := by
  intro l
  induction l with
  | nil =>
    intro out h
    simp only [List.mapM_nil, pure] at h
    cases h
    exact ⟨rfl, fun i hi => absurd hi (by simp)⟩
  | cons a l ih =>
    intro out h
    rw [List.mapM_cons] at h
    cases ha : f a with
    | error e => rw [ha] at h; simp [bind, Except.bind] at h
    | ok b =>
      rw [ha] at h
      cases hl : l.mapM f with
      | error e =>
        rw [hl] at h
        simp [bind, Except.bind] at h
      | ok bs =>
        rw [hl] at h
        simp only [bind, Except.bind, pure, Except.pure] at h
        cases h
        rcases ih bs hl with ⟨hlen, hpt⟩
        refine ⟨by simp [hlen], ?_⟩
        intro i hi
        cases i with
        | zero => simpa using ha
        | succ j =>
          simpa using hpt j (by simpa using hi)

theorem initNone_hasKeys (p : PyDict) :
    dictHasKey (initNone p) "variacion_ranking" = true ∧
    dictHasKey (initNone p) "variacion_precio" = true ∧
    dictHasKey (initNone p) "ranking_anterior" = true := by
  unfold initNone
  refine ⟨?_, ?_, dictHasKey_dictSet_self _ _ _⟩
  · exact dictHasKey_dictSet_of _ _ _ _
      (dictHasKey_dictSet_of _ _ _ _ (dictHasKey_dictSet_self _ _ _))
  · exact dictHasKey_dictSet_of _ _ _ _ (dictHasKey_dictSet_self _ _ _)

theorem rankStep_ok_hasKey (fila : PyDict) (v : Value) (p0 p1 : PyDict)
    (h : rankStep fila v p0 = Except.ok p1) (k : String)
    (hk : dictHasKey p0 k = true) : dictHasKey p1 k = true := by
  unfold rankStep at h
  split at h
  · split at h
    · cases h; exact hk
    · split at h
      · cases h
        exact dictHasKey_dictSet_of _ _ _ _ (dictHasKey_dictSet_of _ _ _ _ hk)
      · cases h
  · cases h; exact hk

theorem priceStep_hasKey (pa pc : Option ℚ) (p : PyDict) (k : String)
    (hk : dictHasKey p k = true) : dictHasKey (priceStep pa pc p) k = true := by
  unfold priceStep
  cases pa <;> cases pc <;> first
    | exact hk
    | exact dictHasKey_dictSet_of _ _ _ _ hk

theorem enrichOne_ok_get_other (ayer : List PyDict) (hoy p : PyDict)
    (h : enrichOne ayer hoy = Except.ok p) (k : String)
    (h1 : k ≠ "variacion_ranking") (h2 : k ≠ "variacion_precio")
    (h3 : k ≠ "ranking_anterior") :
    dictGet p k = dictGet hoy k := by
  unfold enrichOne at h
  split at h
  · cases h
    exact initNone_get_other hoy k h1 h2 h3
  · rename_i fila hfp
    cases hrs : rankStep fila (dictGet hoy "posicion") (initNone hoy) with
    | error e => rw [hrs] at h; cases h
    | ok p1 =>
      rw [hrs] at h
      cases h
      rw [priceStep_get_other _ _ _ _ h2,
        rankStep_ok_get_other _ _ _ _ hrs k h1 h3,
        initNone_get_other hoy k h1 h2 h3]

theorem enrichOne_ok_hasKeys (ayer : List PyDict) (hoy p : PyDict)
    (h : enrichOne ayer hoy = Except.ok p) :
    dictHasKey p "variacion_ranking" = true ∧
    dictHasKey p "variacion_precio" = true ∧
    dictHasKey p "ranking_anterior" = true := by
  unfold enrichOne at h
  split at h
  · cases h
    exact initNone_hasKeys hoy
  · rename_i fila hfp
    cases hrs : rankStep fila (dictGet hoy "posicion") (initNone hoy) with
    | error e => rw [hrs] at h; cases h
    | ok p1 =>
      rw [hrs] at h
      cases h
      have h0 := initNone_hasKeys hoy
      exact ⟨priceStep_hasKey _ _ _ _ (rankStep_ok_hasKey _ _ _ _ hrs _ h0.1),
        priceStep_hasKey _ _ _ _ (rankStep_ok_hasKey _ _ _ _ hrs _ h0.2.1),
        priceStep_hasKey _ _ _ _ (rankStep_ok_hasKey _ _ _ _ hrs _ h0.2.2)⟩

theorem getD_map_initNone (l : List PyDict) (i : ℕ) (h : i < l.length) :
    (l.map initNone).getD i [] = initNone (l.getD i []) := by
  induction l generalizing i with
  | nil => simp at h
  | cons a l ih =>
    cases i with
    | zero => simp
    | succ j => simpa using ih j (by simpa using h)

/-! The trend aggregator. The repository files under `src/` contain only the
single-day view; the range view is described by the specification alone, so
the aggregator is modelled from the spec here. -/

/-- Modelled from the spec: one input row of the trend aggregation (section
4.4), an appearance of a product on one extraction date, already carrying the
opaque grouping key supplied by the storage collaborator. -/
structure SnapRec where
  key : String
  fecha : ℕ
  posicion : ℤ
deriving DecidableEq, Repr

/-- Modelled from the spec: one output row of the trend aggregation, with the
three summary statistics of a product over the range. -/
structure TrendRow where
  key : String
  dias_en_top : ℕ
  mejor_posicion : ℤ
  posicion_promedio : ℚ
deriving DecidableEq, Repr

/-- Minimum of a list of integers (the list of a groups positions is never
empty, the default of the empty case is immaterial). -/
def listMinZ : List ℤ → ℤ
  | [] => 0
  | x :: xs => xs.foldl min x

/-- Modelled from the spec: the summary row of the product with key `k`
within `rs` — `dias_en_top` counts distinct extraction dates,
`mejor_posicion` is the minimum position, `posicion_promedio` the arithmetic
mean of the positions. -/
def summarize (rs : List SnapRec) (k : String) : TrendRow :=
  let g := rs.filter (fun r => r.key = k)
  { key := k
    dias_en_top := ((g.map (fun r => r.fecha)).dedup).length
    mejor_posicion := listMinZ (g.map (fun r => r.posicion))
    posicion_promedio := ((g.map (fun r => r.posicion)).sum : ℚ) / (g.length : ℚ) }

/-- Modelled from the spec: the output order of the aggregator — ascending
`posicion_promedio`, ties broken by descending `dias_en_top`. -/
def trendLE (a b : TrendRow) : Prop :=
  a.posicion_promedio < b.posicion_promedio ∨
    (a.posicion_promedio = b.posicion_promedio ∧ b.dias_en_top ≤ a.dias_en_top)

instance : DecidableRel trendLE := fun a b =>
  inferInstanceAs (Decidable (_ ∨ _))

instance : IsTotal TrendRow trendLE where
  total a b := by
    rcases lt_trichotomy a.posicion_promedio b.posicion_promedio with h | h | h
    · exact Or.inl (Or.inl h)
    · rcases le_total b.dias_en_top a.dias_en_top with hd | hd
      · exact Or.inl (Or.inr ⟨h, hd⟩)
      · exact Or.inr (Or.inr ⟨h.symm, hd⟩)
    · exact Or.inr (Or.inl h)

instance : IsTrans TrendRow trendLE where
  trans a b c hab hbc := by
    rcases hab with hab | ⟨hab, hab2⟩
    · rcases hbc with hbc | ⟨hbc, _⟩
      · exact Or.inl (hab.trans hbc)
      · exact Or.inl (hbc ▸ hab)
    · rcases hbc with hbc | ⟨hbc, hbc2⟩
      · exact Or.inl (hab ▸ hbc)
      · exact Or.inr ⟨hab.trans hbc, le_trans hbc2 hab2⟩

/-- Modelled from the spec: the trend aggregator — one summary row per
distinct key of the input, sorted by `trendLE`. -/
def aggregate (rs : List SnapRec) : List TrendRow :=
  List.insertionSort trendLE (((rs.map (fun r => r.key)).dedup).map (summarize rs))

/-! The claims. -/

/-- Counterexample to claim C2: the price normalizer does not map every
string to its digit-concatenation value. The string `"1.5"` is accepted by
`float()` first, so it normalizes to the number 3/2, not to the
digit-concatenation 15. -/
theorem C2_counterexample :
    parsePrice (Value.str "1.5") = some ((3 : ℚ) / 2) ∧
      ((3 : ℚ) / 2) ≠ (natOfDigits (stripDigits "1.5") : ℚ) :=
  ⟨by rfl, by decide⟩

/-- Claim C2 (amended): the price normalizer returns numeric values
unchanged and maps null to null; a string is first given to `float()`, and
only a string that `float()` rejects is stripped of all its non-digit
characters — null when no digit remains, the digit-concatenation value
otherwise (so `"$1.234,56"` yields 123456 while `"1.5"` yields 1.5); the
function is total, never raising. -/
theorem C2_price_normalizer :
    (∀ n : ℤ, parsePrice (Value.int n) = some (n : ℚ)) ∧
    (∀ q : ℚ, parsePrice (Value.float q) = some q) ∧
    parsePrice Value.null = Option.none ∧
    (∀ s q, pyFloatOfString s = some q → parsePrice (Value.str s) = some q) ∧
    (∀ s, pyFloatOfString s = Option.none → stripDigits s = [] →
      parsePrice (Value.str s) = Option.none) ∧
    (∀ s, pyFloatOfString s = Option.none → stripDigits s ≠ [] →
      parsePrice (Value.str s) = some (natOfDigits (stripDigits s) : ℚ)) ∧
    parsePrice (Value.str "$1.234,56") = some 123456 ∧
    parsePrice (Value.str "") = Option.none := by
  refine ⟨fun n => rfl, fun q => rfl, rfl, ?_, ?_, ?_, by rfl, by rfl⟩
  · intro s q h
    simp only [parsePrice]
    rw [h]
  · intro s h hd
    simp only [parsePrice]
    rw [h]
    simp [hd]
  · intro s h hd
    simp only [parsePrice]
    rw [h]
    simp [hd]

/-- Witness for C2: the float branch at the concrete string `"2.5"`. -/
theorem C2_witness : parsePrice (Value.str "2.5") = some ((5 : ℚ) / 2) :=
  C2_price_normalizer.2.2.2.1 "2.5" ((5 : ℚ) / 2) (by rfl)

/-- Claim C4 (code bug): evaluation of `calcular_variaciones` at the failing
input — a today record whose `posicion` is the non-numeric string `"x"`,
matched by title to a yesterday record with a known integer rank. The
subtraction `ranking_anterior - ranking_actual` raises `TypeError` instead of
degrading to null fields. -/
theorem C4_typeerror_input :
    calcularVariaciones [[("titulo", Value.str "A"), ("posicion", Value.str "x")]]
      [[("titulo", Value.str "A"), ("posicion", Value.int 3)]] =
      Except.error "TypeError" := by rfl

/-- Claim C7: with an empty yesterday list, every output record of
`calcular_variaciones` carries null `variacion_ranking`, `variacion_precio`
and `ranking_anterior`. -/
theorem C7_empty_yesterday (hoy : List PyDict) :
    ∃ out, calcularVariaciones hoy [] = Except.ok out ∧
      ∀ p ∈ out, dictGet p "variacion_ranking" = Value.null ∧
        dictGet p "variacion_precio" = Value.null ∧
        dictGet p "ranking_anterior" = Value.null := by
  refine ⟨hoy.map initNone, by simp [calcularVariaciones], ?_⟩
  intro p hp
  rcases List.mem_map.mp hp with ⟨q, _, rfl⟩
  exact ⟨initNone_get_vr q, initNone_get_vp q, initNone_get_ra q⟩

/-- Witness for C7 at a concrete one-record today list. -/
theorem C7_witness :
    ∃ out, calcularVariaciones [[("titulo", Value.str "A"), ("posicion", Value.int 4)]] []
        = Except.ok out ∧
      ∀ p ∈ out, dictGet p "variacion_ranking" = Value.null ∧
        dictGet p "variacion_precio" = Value.null ∧
        dictGet p "ranking_anterior" = Value.null :=
  C7_empty_yesterday [[("titulo", Value.str "A"), ("posicion", Value.int 4)]]

/-- Claim C8 (code bug): evaluation of `calcular_variaciones` at a failing
input — the claim promises a same-length output sequence for all inputs, but
a today record whose `posicion` is the string `"segundo"`, title-matched to a
prior with rank 1, makes the call raise `TypeError` and return nothing. -/
theorem C8_typeerror_input :
    calcularVariaciones
      [[("titulo", Value.str "B"), ("posicion", Value.str "segundo"),
        ("precio", Value.int 10)]]
      [[("titulo", Value.str "B"), ("posicion", Value.int 1),
        ("precio", Value.int 12)]] =
      Except.error "TypeError" := by rfl

/-- Claim C10: a falsy identity field skips its cascade level — a null or
empty `titulo` skips the title level entirely (whatever yesterday holds, an
equal empty title included), a null, zero or empty `id_producto` skips the id
level, and a null or empty `link_publicacion` skips the link level. -/
theorem C10_falsy_identity_skips :
    (∀ hoy ayer, (dictGet hoy "titulo" = Value.null ∨
        dictGet hoy "titulo" = Value.str "") →
      matchLevel "titulo" hoy ayer = Option.none ∧
      findPrior hoy ayer =
        (match matchLevel "id_producto" hoy ayer with
         | some fila => some fila
         | Option.none => matchLevel "link_publicacion" hoy ayer)) ∧
    (∀ hoy ayer, (dictGet hoy "id_producto" = Value.null ∨
        dictGet hoy "id_producto" = Value.int 0 ∨
        dictGet hoy "id_producto" = Value.str "") →
      matchLevel "id_producto" hoy ayer = Option.none) ∧
    (∀ hoy ayer, (dictGet hoy "link_publicacion" = Value.null ∨
        dictGet hoy "link_publicacion" = Value.str "") →
      matchLevel "link_publicacion" hoy ayer = Option.none) := by
  refine ⟨?_, ?_, ?_⟩
  · intro hoy ayer h
    have hm : matchLevel "titulo" hoy ayer = Option.none := by
      unfold matchLevel
      rcases h with h | h <;> rw [h] <;> simp [truthy]
    refine ⟨hm, ?_⟩
    unfold findPrior
    rw [hm]
  · intro hoy ayer h
    unfold matchLevel
    rcases h with h | h | h <;> rw [h] <;> simp [truthy]
  · intro hoy ayer h
    unfold matchLevel
    rcases h with h | h <;> rw [h] <;> simp [truthy]

/-- Witness for C10: a record with empty `titulo` and no other identity gets
no prior even though a yesterday record carries the identical empty title. -/
theorem C10_witness :
    matchLevel "titulo" [("titulo", Value.str "")]
        [[("titulo", Value.str ""), ("posicion", Value.int 5)]] = Option.none ∧
    findPrior [("titulo", Value.str "")]
        [[("titulo", Value.str ""), ("posicion", Value.int 5)]] = Option.none := by
  have h := C10_falsy_identity_skips.1 [("titulo", Value.str "")]
    [[("titulo", Value.str ""), ("posicion", Value.int 5)]] (Or.inr (by rfl))
  exact ⟨h.1, by rw [h.2]; rfl⟩

theorem matchLevel_eq_find (field : String) (hoy : PyDict) (ayer : List PyDict)
    (h : truthy (dictGet hoy field) = true) :
    matchLevel field hoy ayer =
      ayer.find? (fun y => pyEq (dictGet y field) (dictGet hoy field)) := by
  unfold matchLevel
  rw [if_pos h]

theorem findPrior_of_title_found (hoy : PyDict) (ayer : List PyDict) (fila : PyDict)
    (h : matchLevel "titulo" hoy ayer = some fila) :
    findPrior hoy ayer = some fila := by
  unfold findPrior
  rw [h]

/-- Counterexample to claim C3: a yesterday record whose `titulo` is exactly
equal (both the empty string) to todays `titulo` exists, yet the returned
prior is another record, found at the id level — the title level is skipped
for a falsy title, so the title match does not win. -/
theorem C3_counterexample :
    pyEq (dictGet [("titulo", Value.str ""), ("posicion", Value.int 5)] "titulo")
        (dictGet [("titulo", Value.str ""), ("id_producto", Value.str "X")] "titulo")
      = true ∧
    findPrior [("titulo", Value.str ""), ("id_producto", Value.str "X")]
        [[("titulo", Value.str ""), ("posicion", Value.int 5)],
         [("titulo", Value.str "B"), ("id_producto", Value.str "X"),
          ("posicion", Value.int 7)]]
      = some [("titulo", Value.str "B"), ("id_producto", Value.str "X"),
          ("posicion", Value.int 7)] :=
  ⟨by rfl, by rfl⟩

/-- Claim C3 (amended): provided todays `titulo` is a non-empty string, a
title match wins over any id or link match elsewhere and the first
title-matching yesterday record in iteration order is used; when the title
level finds nothing, a truthy id with a match likewise takes the first
id-matching record, and then the link level the first link-matching one. -/
theorem C3_title_priority :
    (∀ hoy ayer t, dictGet hoy "titulo" = Value.str t → t ≠ "" →
      (∃ y ∈ ayer, pyEq (dictGet y "titulo") (Value.str t) = true) →
      findPrior hoy ayer =
        ayer.find? (fun y => pyEq (dictGet y "titulo") (Value.str t))) ∧
    (∀ hoy ayer, matchLevel "titulo" hoy ayer = Option.none →
      truthy (dictGet hoy "id_producto") = true →
      (∃ y ∈ ayer, pyEq (dictGet y "id_producto") (dictGet hoy "id_producto") = true) →
      findPrior hoy ayer =
        ayer.find? (fun y => pyEq (dictGet y "id_producto") (dictGet hoy "id_producto"))) ∧
    (∀ hoy ayer, matchLevel "titulo" hoy ayer = Option.none →
      matchLevel "id_producto" hoy ayer = Option.none →
      truthy (dictGet hoy "link_publicacion") = true →
      (∃ y ∈ ayer, pyEq (dictGet y "link_publicacion")
        (dictGet hoy "link_publicacion") = true) →
      findPrior hoy ayer =
        ayer.find? (fun y => pyEq (dictGet y "link_publicacion")
          (dictGet hoy "link_publicacion"))) := by
  refine ⟨?_, ?_, ?_⟩
  · intro hoy ayer t ht hne hex
    have htr : truthy (dictGet hoy "titulo") = true := by
      rw [ht]
      simpa [truthy] using hne
    have hm := matchLevel_eq_find "titulo" hoy ayer htr
    rw [ht] at hm
    have hs : (ayer.find? (fun y => pyEq (dictGet y "titulo") (Value.str t))).isSome := by
      rcases hex with ⟨y, hy, hp⟩
      exact List.find?_isSome.mpr ⟨y, hy, hp⟩
    cases hf : ayer.find? (fun y => pyEq (dictGet y "titulo") (Value.str t)) with
    | none => rw [hf] at hs; cases hs
    | some y0 => exact findPrior_of_title_found hoy ayer y0 (hm.trans hf)
  · intro hoy ayer htit htr hex
    have hm := matchLevel_eq_find "id_producto" hoy ayer htr
    have hs : (ayer.find? (fun y => pyEq (dictGet y "id_producto")
        (dictGet hoy "id_producto"))).isSome := by
      rcases hex with ⟨y, hy, hp⟩
      exact List.find?_isSome.mpr ⟨y, hy, hp⟩
    unfold findPrior
    rw [htit, hm]
    cases hf : ayer.find? (fun y => pyEq (dictGet y "id_producto")
        (dictGet hoy "id_producto")) with
    | none => rw [hf] at hs; cases hs
    | some y0 => rfl
  · intro hoy ayer htit hid htr hex
    have hm := matchLevel_eq_find "link_publicacion" hoy ayer htr
    unfold findPrior
    rw [htit, hid, hm]

/-- Witness for C3: with a truthy title `"A"` matching the second yesterday
record, that record is returned although the first yesterday record matches
by id. -/
theorem C3_witness :
    findPrior [("titulo", Value.str "A"), ("id_producto", Value.str "X")]
        [[("id_producto", Value.str "X"), ("posicion", Value.int 9)],
         [("titulo", Value.str "A"), ("posicion", Value.int 4)]]
      = some [("titulo", Value.str "A"), ("posicion", Value.int 4)] := by
  have h := C3_title_priority.1
    [("titulo", Value.str "A"), ("id_producto", Value.str "X")]
    [[("id_producto", Value.str "X"), ("posicion", Value.int 9)],
     [("titulo", Value.str "A"), ("posicion", Value.int 4)]]
    "A" (by rfl) (by decide)
    ⟨[("titulo", Value.str "A"), ("posicion", Value.int 4)], by simp, by rfl⟩
  rw [h]
  rfl

/-- Counterexample to claim C6: a today record with no `posicion` of its own
is title-matched to a prior whose rank 3 is a known integer, yet the output
`ranking_anterior` is null — the source only assigns `ranking_anterior`
inside the guard that also requires todays position, so it is not independent
of todays `posicion`. -/
theorem C6_counterexample :
    findPrior [("titulo", Value.str "A")]
        [[("titulo", Value.str "A"), ("posicion", Value.int 3)]]
      = some [("titulo", Value.str "A"), ("posicion", Value.int 3)] ∧
    rankingAnteriorOf [("titulo", Value.str "A"), ("posicion", Value.int 3)]
      = some 3 ∧
    calcularVariaciones [[("titulo", Value.str "A")]]
        [[("titulo", Value.str "A"), ("posicion", Value.int 3)]]
      = Except.ok [[("titulo", Value.str "A"), ("variacion_ranking", Value.null),
          ("variacion_precio", Value.null), ("ranking_anterior", Value.null)]] :=
  ⟨by rfl, by rfl, by rfl⟩

/-- Claim C6 (amended): on a successful per-record run, `ranking_anterior`
equals the matched prior rank when a prior is found, the prior rank converts
to an integer AND todays own `posicion` is not null; it is null when the
record is unmatched, when the prior rank is unknown, or when todays
`posicion` is null. -/
theorem C6_ranking_anterior :
    ∀ ayer hoy p, enrichOne ayer hoy = Except.ok p →
      ((∀ fila ra, findPrior hoy ayer = some fila →
          rankingAnteriorOf fila = some ra →
          dictGet hoy "posicion" ≠ Value.null →
          dictGet p "ranking_anterior" = Value.int ra) ∧
        ((findPrior hoy ayer = Option.none ∨
          (∃ fila, findPrior hoy ayer = some fila ∧
            rankingAnteriorOf fila = Option.none) ∨
          dictGet hoy "posicion" = Value.null) →
         dictGet p "ranking_anterior" = Value.null)) := by
  intro ayer hoy p h
  constructor
  · intro fila ra hfp hra hpos
    unfold enrichOne at h
    split at h
    · rename_i hfp2
      rw [hfp2] at hfp
      cases hfp
    · rename_i fila2 hfp2
      rw [hfp2] at hfp
      injection hfp with hfe
      subst hfe
      cases hrs : rankStep fila2 (dictGet hoy "posicion") (initNone hoy) with
      | error e => rw [hrs] at h; cases h
      | ok p1 =>
        rw [hrs] at h
        cases h
        rw [priceStep_get_other _ _ _ _ (by decide)]
        unfold rankStep at hrs
        split at hrs
        · rename_i ra2 hra2
          rw [hra2] at hra
          injection hra with hre
          subst hre
          rw [if_neg hpos] at hrs
          split at hrs
          · cases hrs
            rw [dictGet_dictSet_self]
          · cases hrs
        · rename_i hra2
          rw [hra2] at hra
          cases hra
  · intro hcase
    rcases hcase with hfp | ⟨fila, hfp, hra⟩ | hpos
    · unfold enrichOne at h
      split at h
      · cases h
        exact initNone_get_ra hoy
      · rename_i fila2 hfp2
        rw [hfp2] at hfp
        cases hfp
    · unfold enrichOne at h
      split at h
      · cases h
        exact initNone_get_ra hoy
      · rename_i fila2 hfp2
        rw [hfp2] at hfp
        injection hfp with hfe
        subst hfe
        rw [rankStep_of_null_prior fila2 _ _ hra] at h
        cases h
        rw [priceStep_get_other _ _ _ _ (by decide)]
        exact initNone_get_ra hoy
    · unfold enrichOne at h
      split at h
      · cases h
        exact initNone_get_ra hoy
      · rename_i fila2 hfp2
        rw [hpos, rankStep_of_null_actual fila2 _] at h
        cases h
        rw [priceStep_get_other _ _ _ _ (by decide)]
        exact initNone_get_ra hoy

/-- Witness for C6 at a concrete matched pair with both ranks known. -/
theorem C6_witness :
    dictGet [("titulo", Value.str "A"), ("posicion", Value.int 1),
        ("variacion_ranking", Value.int 2), ("variacion_precio", Value.null),
        ("ranking_anterior", Value.int 3)] "ranking_anterior" = Value.int 3 :=
  (C6_ranking_anterior [[("titulo", Value.str "A"), ("posicion", Value.int 3)]]
      [("titulo", Value.str "A"), ("posicion", Value.int 1)] _ (by rfl)).1
    [("titulo", Value.str "A"), ("posicion", Value.int 3)] 3
    (by rfl) (by rfl) (by decide)

/-- Counterexample to claim C5: the today records are mutated in place —
after a call with an empty yesterday list, the callers record no longer holds
exactly the fields it held before, as the three variation keys were assigned
into it. -/
theorem C5_counterexample :
    todayRecordsAfter [[("titulo", Value.str "A")]] [] ≠
      Except.ok [[("titulo", Value.str "A")]] := by
  have h : todayRecordsAfter [[("titulo", Value.str "A")]] [] =
      Except.ok [[("titulo", Value.str "A"), ("variacion_ranking", Value.null),
        ("variacion_precio", Value.null), ("ranking_anterior", Value.null)]] := by rfl
  rw [h]
  intro hc
  injection hc with hl
  exact absurd hl (by decide)

/-- Claim C5 (amended): `calcular_variaciones` mutates each caller-supplied
today record in place, writing exactly the keys `variacion_ranking`,
`variacion_precio` and `ranking_anterior`; every other field of every today
record is left unchanged, and the yesterday records are never mutated. -/
theorem C5_input_mutation :
    (∀ hoy ayer, yesterdayRecordsAfter hoy ayer = ayer) ∧
    (∀ hoy ayer out, todayRecordsAfter hoy ayer = Except.ok out →
      out.length = hoy.length ∧
      ∀ i, i < hoy.length →
        ((∀ k, k ≠ "variacion_ranking" → k ≠ "variacion_precio" →
            k ≠ "ranking_anterior" →
            dictGet (out.getD i []) k = dictGet (hoy.getD i []) k) ∧
          dictHasKey (out.getD i []) "variacion_ranking" = true ∧
          dictHasKey (out.getD i []) "variacion_precio" = true ∧
          dictHasKey (out.getD i []) "ranking_anterior" = true)) := by
  refine ⟨fun hoy ayer => rfl, ?_⟩
  intro hoy ayer out h
  unfold todayRecordsAfter calcularVariaciones at h
  by_cases hae : ayer.isEmpty
  · rw [if_pos hae] at h
    injection h with hout
    subst hout
    refine ⟨by simp, ?_⟩
    intro i hi
    rw [getD_map_initNone hoy i hi]
    exact ⟨fun k h1 h2 h3 => initNone_get_other _ k h1 h2 h3,
      initNone_hasKeys _⟩
  · rw [if_neg hae] at h
    rcases mapM_except_ok (enrichOne ayer) hoy out h with ⟨hlen, hpt⟩
    refine ⟨hlen, ?_⟩
    intro i hi
    have he := hpt i hi
    exact ⟨fun k h1 h2 h3 => enrichOne_ok_get_other ayer _ _ he k h1 h2 h3,
      enrichOne_ok_hasKeys ayer _ _ he⟩

/-- Witness for C5: a caller field named `extra` survives the call unchanged
while the three variation keys appear. -/
theorem C5_witness :
    dictGet [("titulo", Value.str "A"), ("extra", Value.int 7),
        ("variacion_ranking", Value.null), ("variacion_precio", Value.null),
        ("ranking_anterior", Value.null)] "extra" =
      dictGet [("titulo", Value.str "A"), ("extra", Value.int 7)] "extra" := by
  have h := (C5_input_mutation.2 [[("titulo", Value.str "A"), ("extra", Value.int 7)]] []
    [[("titulo", Value.str "A"), ("extra", Value.int 7),
      ("variacion_ranking", Value.null), ("variacion_precio", Value.null),
      ("ranking_anterior", Value.null)]] (by rfl)).2 0 (by decide)
  exact h.1 "extra" (by decide) (by decide) (by decide)

/-- Claim C1: whenever the matcher finds a prior row, the rank delta is
`ranking_anterior - ranking_actual` when both ranks are known, the price
delta is `precio_actual - precio_anterior` when both prices normalize, and
the spec scenario (titles `"A"`, ranks 1 and 3, prices 100 and 120) yields
`variacion_ranking = 2` and `variacion_precio = -20`. -/
theorem C1_variation_formulas :
    (∀ hoy ayer, ayer ≠ [] →
      calcularVariaciones hoy ayer = hoy.mapM (enrichOne ayer)) ∧
    (∀ ayer hoy fila ra rc, findPrior hoy ayer = some fila →
      rankingAnteriorOf fila = some ra →
      dictGet hoy "posicion" = Value.int rc →
      ∃ p, enrichOne ayer hoy = Except.ok p ∧
        dictGet p "variacion_ranking" = Value.int (ra - rc)) ∧
    (∀ ayer hoy fila pa pc p, findPrior hoy ayer = some fila →
      parsePrice (dictGet fila "precio") = some pa →
      parsePrice (dictGet hoy "precio") = some pc →
      enrichOne ayer hoy = Except.ok p →
      dictGet p "variacion_precio" = Value.float (pc - pa)) ∧
    calcularVariaciones
        [[("titulo", Value.str "A"), ("posicion", Value.int 1),
          ("precio", Value.int 100), ("link_publicacion", Value.str "u1")]]
        [[("titulo", Value.str "A"), ("posicion", Value.int 3),
          ("precio", Value.int 120), ("link_publicacion", Value.str "u1")]]
      = Except.ok
        [[("titulo", Value.str "A"), ("posicion", Value.int 1),
          ("precio", Value.int 100), ("link_publicacion", Value.str "u1"),
          ("variacion_ranking", Value.int 2), ("variacion_precio", Value.float (-20)),
          ("ranking_anterior", Value.int 3)]] := by
  refine ⟨?_, ?_, ?_, by rfl⟩
  · intro hoy ayer h
    unfold calcularVariaciones
    rw [if_neg (by simpa [List.isEmpty_iff] using h)]
  · intro ayer hoy fila ra rc hfp hra hpos
    unfold enrichOne
    rw [hfp]
    dsimp only
    rw [hpos, rankStep_of_int fila ra rc (initNone hoy) hra]
    refine ⟨_, rfl, ?_⟩
    rw [priceStep_get_other _ _ _ _ (by decide),
      dictGet_dictSet_ne _ _ _ _ (by decide), dictGet_dictSet_self]
  · intro ayer hoy fila pa pc p hfp hpa hpc h
    unfold enrichOne at h
    split at h
    · rename_i hfp2
      rw [hfp2] at hfp
      cases hfp
    · rename_i fila2 hfp2
      rw [hfp2] at hfp
      injection hfp with hfe
      subst hfe
      cases hrs : rankStep fila2 (dictGet hoy "posicion") (initNone hoy) with
      | error e => rw [hrs] at h; cases h
      | ok p1 =>
        rw [hrs] at h
        injection h with hp
        subst hp
        rw [hpa, hpc, priceStep_get_vp]

/-- Witness for C1: the rank-delta formula at the spec scenario. -/
theorem C1_witness :
    ∃ p, enrichOne
        [[("titulo", Value.str "A"), ("posicion", Value.int 3),
          ("precio", Value.int 120), ("link_publicacion", Value.str "u1")]]
        [("titulo", Value.str "A"), ("posicion", Value.int 1),
          ("precio", Value.int 100), ("link_publicacion", Value.str "u1")]
      = Except.ok p ∧
      dictGet p "variacion_ranking" = Value.int (3 - 1) :=
  C1_variation_formulas.2.1
    [[("titulo", Value.str "A"), ("posicion", Value.int 3),
      ("precio", Value.int 120), ("link_publicacion", Value.str "u1")]]
    [("titulo", Value.str "A"), ("posicion", Value.int 1),
      ("precio", Value.int 100), ("link_publicacion", Value.str "u1")]
    [("titulo", Value.str "A"), ("posicion", Value.int 3),
      ("precio", Value.int 120), ("link_publicacion", Value.str "u1")]
    3 1 (by rfl) (by rfl) (by rfl)

/-- The spec ordering scenario: product `P` appears on five dates, product
`Q` on three, both with every position 2, so their `posicion_promedio` tie at
2 and `dias_en_top` are 5 and 3. -/
def trendExample : List SnapRec :=
  [⟨"P", 1, 2⟩, ⟨"P", 2, 2⟩, ⟨"P", 3, 2⟩, ⟨"P", 4, 2⟩, ⟨"P", 5, 2⟩,
   ⟨"Q", 1, 2⟩, ⟨"Q", 2, 2⟩, ⟨"Q", 3, 2⟩]

/-- Claim C9: the trend aggregator emits one row per unique product identity
(the output keys are a permutation of the distinct input keys), each row
carries the count of distinct extraction dates, the minimum position and the
arithmetic mean position of its group, the output is sorted ascending by
`posicion_promedio` with ties broken by descending `dias_en_top`, and on the
spec scenario the tied product seen on five days sorts before the one seen on
three. -/
theorem C9_trend_aggregator :
    (∀ rs : List SnapRec,
      ((aggregate rs).map (fun row => row.key)).Perm
        ((rs.map (fun r => r.key)).dedup)) ∧
    (∀ rs : List SnapRec, ∀ row ∈ aggregate rs,
      row.dias_en_top =
        (((rs.filter (fun r => r.key = row.key)).map (fun r => r.fecha)).dedup).length ∧
      row.mejor_posicion =
        listMinZ ((rs.filter (fun r => r.key = row.key)).map (fun r => r.posicion)) ∧
      row.posicion_promedio =
        (((rs.filter (fun r => r.key = row.key)).map (fun r => r.posicion)).sum : ℚ) /
          ((rs.filter (fun r => r.key = row.key)).length : ℚ)) ∧
    (∀ rs : List SnapRec, (aggregate rs).Sorted trendLE) ∧
    aggregate trendExample =
      [⟨"P", 5, 2, 2⟩, ⟨"Q", 3, 2, 2⟩] := by
  refine ⟨?_, ?_, fun rs => List.sorted_insertionSort trendLE _, by rfl⟩
  · intro rs
    have h1 := (List.perm_insertionSort trendLE
      (((rs.map (fun r => r.key)).dedup).map (summarize rs))).map (fun row => row.key)
    have h2 : ((((rs.map (fun r => r.key)).dedup).map (summarize rs)).map
        (fun row => row.key)) = (rs.map (fun r => r.key)).dedup := by
      rw [List.map_map]
      exact List.map_id'' (fun k => rfl) _
    rw [h2] at h1
    exact h1
  · intro rs row hrow
    have hmem : row ∈ ((rs.map (fun r => r.key)).dedup).map (summarize rs) :=
      (List.perm_insertionSort trendLE _).mem_iff.mp hrow
    rcases List.mem_map.mp hmem with ⟨k, _, rfl⟩
    exact ⟨rfl, rfl, rfl⟩

/-- Witness for C9: the summary row of product `P` in the scenario carries
the stats of its own group. -/
theorem C9_witness :
    (⟨"P", 5, 2, 2⟩ : TrendRow).dias_en_top =
      (((trendExample.filter (fun r => r.key = (⟨"P", 5, 2, 2⟩ : TrendRow).key)).map
        (fun r => r.fecha)).dedup).length ∧
    (⟨"P", 5, 2, 2⟩ : TrendRow).mejor_posicion =
      listMinZ ((trendExample.filter
        (fun r => r.key = (⟨"P", 5, 2, 2⟩ : TrendRow).key)).map (fun r => r.posicion)) ∧
    (⟨"P", 5, 2, 2⟩ : TrendRow).posicion_promedio =
      (((trendExample.filter (fun r => r.key = (⟨"P", 5, 2, 2⟩ : TrendRow).key)).map
          (fun r => r.posicion)).sum : ℚ) /
        ((trendExample.filter
          (fun r => r.key = (⟨"P", 5, 2, 2⟩ : TrendRow).key)).length : ℚ) :=
  C9_trend_aggregator.2.1 trendExample ⟨"P", 5, 2, 2⟩ (by decide)

end Dashboard
